import Mathlib

/-!
# Verification of the Qwik v2 reactive signal core

Shallow embedding of the signal graph and task-execution code of this
repository:

* `packages/qwik/src/core/v2/signal/v2-signal.ts` — `Signal2`,
  `ComputedSignal2`, `DerivedSignal2`, `ensureContains`,
  `createComputedSignal2`.
* `packages/qwik/src/core/use/use-task.ts` — `runTask`, `cleanupTask`,
  the `track` and `cleanup` closures, `TaskFlags`.

JavaScript values are modelled by `JSValue` with the strict-equality
(`===`) predicate `jsStrictEq` (NaN is not `===` itself; objects compare
by identity, modelled as a numeric id). Mutable heap objects that the
code compares by reference (effect-subscription arrays, signals) carry
numeric ids.
-/

/-- A JavaScript value, at the granularity the signal core observes it:
`===` comparison and property access. `obj i` is an object with identity
`i`; `needsComputation` is the `NEEDS_COMPUTATION` sentinel object of
`v2-signal.ts`. -/
inductive JSValue : Type where
  | jsUndefined : JSValue
  | nullv : JSValue
  | boolv : Bool → JSValue
  | num : Int → JSValue
  | nan : JSValue
  | str : String → JSValue
  | obj : Nat → JSValue
  | needsComputation : JSValue
deriving DecidableEq, Repr

/-- JavaScript strict equality `===`: structural on primitives, identity on
objects, and `NaN === NaN` is `false`. -/
def jsStrictEq : JSValue → JSValue → Bool
  | .nan, _ => false
  | _, .nan => false
  | a, b => a = b

/-- The `string | boolean` property slot of an `EffectSubscriptions` tuple
(`EffectSubscriptionsProp.PROPERTY`): `true` means component re-render,
`false` means node diff, a string names a node property. -/
inductive EffProp : Type where
  | comp : EffProp
  | nodeDiff : EffProp
  | propName : String → EffProp
deriving DecidableEq, Repr

/-- A work item passed to `container.$scheduler$` by `$triggerEffects$`.
QRLs, props, hosts and signals are referenced by numeric ids. -/
inductive Chore : Type where
  | task : Nat → Chore
  | component : Nat → Nat → Nat → Chore
  | nodeDiff : Nat → Nat → Nat → Chore
  | nodeProp : Nat → String → Nat → Chore
deriving DecidableEq, Repr

/-- The slice of `Container2` that `$triggerEffects$` consults:
`getHostProp(host, OnRenderProp)` and `getHostProp(host, ELEMENT_PROPS)`,
as total maps from host ids. -/
structure WContainer : Type where
  renderQrl : Nat → Nat
  elementProps : Nat → Nat

mutual
/-- An `Effect` (`Task | VNode | Signal2`) as seen by `$triggerEffects$`:
a task carries its `$flags$` bitfield; a nested computed/derived signal
carries its `$invalid$` flag and its own `$effects$` list (`null` is
`Option.none`); a VNode carries its host id. -/
inductive WEffect : Type where
  | task : Nat → Nat → WEffect
  | sig : Nat → Bool → Option (List WSub) → WEffect
  | vnode : Nat → WEffect

/-- An `EffectSubscriptions` tuple `[effect, property, ...signals]`,
with a numeric identity (the array object's id) and the trailing
back-reference list of signal ids. -/
inductive WSub : Type where
  | mk : Nat → WEffect → EffProp → List Nat → WSub
end

/-- `TaskFlags.DIRTY = 1 << 3`. -/
def dirtyFlag : Nat := 8

mutual
/-- The `scheduleEffect` closure inside `Signal2.$triggerEffects$`,
dispatching one subscription. `cur` is the current value of the closed-over
`signal` variable (initially the signal whose value changed); the updated
subscription (dirty/invalid flags) is returned with the chores enqueued,
in order. -/
def scheduleEffect (c : WContainer) (cur : Nat) : WSub → WSub × List Chore
  | .mk id eff prop deps =>
    match eff with
    | .task tid flags =>
      (.mk id (.task tid (flags ||| dirtyFlag)) prop deps, [.task id])
    | .sig sid _ effs =>
      match effs with
      | none => (.mk id (.sig sid true none) prop deps, [])
      | some l =>
        let r := scheduleEffectList c sid l
        (.mk id (.sig sid true (some r.1)) prop deps, r.2)
    | .vnode host =>
      match prop with
      | .comp =>
        (.mk id (.vnode host) prop deps,
         [.component host (c.renderQrl host) (c.elementProps host)])
      | .nodeDiff =>
        (.mk id (.vnode host) prop deps, [.nodeDiff host host cur])
      | .propName p =>
        (.mk id (.vnode host) prop deps, [.nodeProp host p cur])

/-- `this.$effects$.forEach(scheduleEffect)`: dispatch a subscription list
in recorded (insertion) order under the same current signal. -/
def scheduleEffectList (c : WContainer) (cur : Nat) :
    List WSub → List WSub × List Chore
  | [] => ([], [])
  | x :: xs =>
    let a := scheduleEffect c cur x
    let b := scheduleEffectList c cur xs
    (a.1 :: b.1, a.2 ++ b.2)
end

/-- A plain `Signal2` as the write path sees it: identity, owning
container, `$untrackedValue$` and `$effects$` (`null` is `none`). -/
structure WSignal : Type where
  id : Nat
  container : Option Nat
  untracked : JSValue
  effects : Option (List WSub)

/-- `Signal2.$triggerEffects$`: nothing when `$effects$` is `null`,
otherwise dispatch every recorded subscription in order. -/
def triggerEffects (c : WContainer) (s : WSignal) : WSignal × List Chore :=
  match s.effects with
  | none => (s, [])
  | some l =>
    let r := scheduleEffectList c s.id l
    ({ s with effects := some r.1 }, r.2)

/-- `Signal2.set value`: no-op unless `value !== this.$untrackedValue$`;
otherwise store the value and trigger effects. -/
def setValue (c : WContainer) (s : WSignal) (v : JSValue) :
    WSignal × List Chore :=
  if jsStrictEq v s.untracked then (s, [])
  else triggerEffects c { s with untracked := v }

/-- A `ComputedSignal2`: the inherited `Signal2` fields plus the
`$invalid$` flag and the handle of the resolved `$computeQrl$`. -/
structure WComputed : Type where
  id : Nat
  container : Option Nat
  untracked : JSValue
  invalid : Bool
  effects : Option (List WSub)
  computeQrl : Nat

/-- The inherited `$triggerEffects$` running on a `ComputedSignal2`
(the closed-over `signal` variable starts at this computed signal). -/
def triggerEffectsC (c : WContainer) (s : WComputed) : WComputed × List Chore :=
  match s.effects with
  | none => (s, [])
  | some l =>
    let r := scheduleEffectList c s.id l
    ({ s with effects := some r.1 }, r.2)

/-- `ComputedSignal2.$computeIfNeeded$`. The compute function
`$computeQrl$.getFn(ctx)()` is external, so its current result is the
parameter `newVal`. Returns `didChange` (strict inequality with the prior
value) and the updated signal: `$invalid$` cleared, value stored. -/
def computeIfNeededC (s : WComputed) (newVal : JSValue) : Bool × WComputed :=
  if s.invalid = false then (false, s)
  else (!jsStrictEq newVal s.untracked,
        { s with invalid := false, untracked := newVal })

/-- `ComputedSignal2.$invalidate$`: mark invalid; stop if `$effects$` is
`null` or empty; otherwise compute now and trigger effects only when the
value changed. -/
def invalidateC (c : WContainer) (s : WComputed) (newVal : JSValue) :
    WComputed × List Chore :=
  let s1 := { s with invalid := true }
  if (s1.effects.getD []).length = 0 then (s1, [])
  else
    let r := computeIfNeededC s1 newVal
    if r.1 then triggerEffectsC c r.2 else (r.2, [])

/-- `ComputedSignal2.force`: mark invalid and trigger effects
unconditionally. -/
def forceC (c : WContainer) (s : WComputed) : WComputed × List Chore :=
  triggerEffectsC c { s with invalid := true }

/-- A `DerivedSignal2`: inherited `Signal2` fields plus the `$invalid$`
flag (the captured `$fn$`/`$args$` are external, so the function's current
result is passed as a parameter where needed). -/
structure WDerived : Type where
  id : Nat
  container : Option Nat
  untracked : JSValue
  invalid : Bool
  effects : Option (List WSub)

/-- The inherited `$triggerEffects$` running on a `DerivedSignal2`. -/
def triggerEffectsD (c : WContainer) (s : WDerived) : WDerived × List Chore :=
  match s.effects with
  | none => (s, [])
  | some l =>
    let r := scheduleEffectList c s.id l
    ({ s with effects := some r.1 }, r.2)

/-- `DerivedSignal2.$computeIfNeeded$`: returns `false` when not invalid;
otherwise stores the freshly computed value via `trackSignal2` and falls
off the end of the function — the JS function returns `undefined` (falsy,
modelled as `false`) and, unlike the computed-signal variant, neither
clears `$invalid$` nor reports whether the value changed. -/
def computeIfNeededD (s : WDerived) (newVal : JSValue) : Bool × WDerived :=
  if s.invalid = false then (false, s)
  else (false, { s with untracked := newVal })

/-- `DerivedSignal2.$invalidate$`: mark invalid; stop if `$effects$` is
`null` or empty; otherwise compute now and trigger effects only when
`$computeIfNeeded$` reports a change. -/
def invalidateD (c : WContainer) (s : WDerived) (newVal : JSValue) :
    WDerived × List Chore :=
  let s1 := { s with invalid := true }
  if (s1.effects.getD []).length = 0 then (s1, [])
  else
    let r := computeIfNeededD s1 newVal
    if r.1 then triggerEffectsD c r.2 else (r.2, [])

/-- `DerivedSignal2.force`: mark invalid and trigger effects
unconditionally. -/
def forceD (c : WContainer) (s : WDerived) : WDerived × List Chore :=
  triggerEffectsD c { s with invalid := true }

/-- `ComputedSignal2.set value` throws `TypeError('ComputedSignal is
read-only')`; nothing else happens. -/
def setValueC (_s : WComputed) (_v : JSValue) : Except String WComputed :=
  .error "ComputedSignal is read-only"

/-- `DerivedSignal2.set value` throws `TypeError('DerivedSignal is
read-only')`; nothing else happens. -/
def setValueD (_s : WDerived) (_v : JSValue) : Except String WDerived :=
  .error "DerivedSignal is read-only"

/-- The state a computed signal is left in after an assignment attempt:
the new state on success, the old state if the setter threw. -/
def trySetValueC (s : WComputed) (v : JSValue) : WComputed :=
  match setValueC s v with
  | .ok s1 => s1
  | .error _ => s

/-- The state a derived signal is left in after an assignment attempt. -/
def trySetValueD (s : WDerived) (v : JSValue) : WDerived :=
  match setValueD s v with
  | .ok s1 => s1
  | .error _ => s

/-- A `QRL`: only its `resolved` slot matters here — `some f` holds the
handle of the synchronously callable resolved function, `none` means not
yet resolved (`qrl.resolved` is falsy). -/
structure QRLModel : Type where
  resolved : Option Nat

/-- What `createComputedSignal2` throws for an unresolved QRL: the
pending promise `qrl.resolve()`. -/
inductive CreateSignalErr : Type where
  | thrownResolvePromise : CreateSignalErr
deriving DecidableEq

/-- `createComputedSignal2(qrl)`: throws `qrl.resolve()` when the QRL is
not resolved, otherwise constructs `new ComputedSignal2(null, qrl)` —
container `null`, value `NEEDS_COMPUTATION`, `$invalid$` true, no
effects. `fresh` is the identity of the new signal object. -/
def createComputedSignal2 (fresh : Nat) (q : QRLModel) :
    Except CreateSignalErr WComputed :=
  match q.resolved with
  | none => .error .thrownResolvePromise
  | some f => .ok ⟨fresh, none, .needsComputation, true, none, f⟩

/-! ## The read path: `Signal2.get value`

On the read path the signal's `$effects$` array stores references to
shared `EffectSubscriptions` array objects and `ensureContains`
deduplicates by object identity (`indexOf`), so subscriptions are
represented here by their numeric id and the subscriber's tuple is the
structure `ESub` (its `deps` tail is the `...Signal2[]` back-reference
list of signal ids). -/

/-- An `EffectSubscriptions` array as a mutable object: its identity and
the trailing list of signal ids that `ensureContains(effectSubscriber,
this)` appends to. -/
structure ESub : Type where
  id : Nat
  deps : List Nat
deriving DecidableEq, Repr

/-- The slice of the invoke context that `Signal2.get value` reads:
`$container2$`, `$effectSubscriber$`, `$hostElement$`. -/
structure RCtx : Type where
  container2 : Option Nat
  effectSubscriber : Option ESub
  hostElement : Option Nat

/-- A `Signal2` as the read path sees it: identity, owning container,
`$untrackedValue$`, and `$effects$` as a list of subscription-object ids
(`null` is `none`). -/
structure RSignal : Type where
  id : Nat
  container : Option Nat
  untracked : JSValue
  effects : Option (List Nat)
deriving DecidableEq, Repr

/-- `ensureContains(array, value)`: push unless already present
(`indexOf !== -1`, i.e. identity membership). -/
def ensureContains (l : List Nat) (x : Nat) : List Nat :=
  if x ∈ l then l else l ++ [x]

/-- Failures of the `assertDefined`/`assertTrue` checks in
`Signal2.get value` (dev-mode assertion semantics). -/
inductive SigErr : Type where
  | assertContainerMissing : SigErr
  | crossContainer : SigErr
deriving DecidableEq, Repr

/-- Whether the container-binding step of `get value` passes its
assertions for a signal `s` read under a context whose `$container2$` is
`c2`. -/
def containerOk (s : RSignal) (c2 : Option Nat) : Bool :=
  match s.container, c2 with
  | none, none => false
  | none, some _ => true
  | some _, none => true
  | some c, some c2v => c = c2v

/-- The container the signal holds after the binding step: a signal with
no container grabs the context's container. -/
def bindContainer (s : RSignal) (c2 : Option Nat) : Option Nat :=
  match s.container with
  | none => c2
  | some c => some c

/-- `Signal2.get value`. Returns the value read, the updated signal and
the (possibly fresh, possibly updated) subscriber tuple. With no invoke
context the read is plain. Under a context: bind or check the container;
resolve the subscriber — the context's `$effectSubscriber$`, or a fresh
`[host, true]` tuple (identity `fresh`) when only `$hostElement$` is set;
if there is a subscriber, `ensureContains` it in the signal's effects and
`ensureContains` the signal in the subscriber's back-reference list. -/
def getValue (s : RSignal) (octx : Option RCtx) (fresh : Nat) :
    Except SigErr (JSValue × RSignal × Option ESub) :=
  match octx with
  | none => .ok (s.untracked, s, none)
  | some ctx =>
    match s.container, ctx.container2 with
    | none, none => .error .assertContainerMissing
    | some c, some c2 =>
      if c = c2 then getValueTracked { s with container := some c } ctx fresh
      else .error .crossContainer
    | _, _ =>
      getValueTracked { s with container := bindContainer s ctx.container2 }
        ctx fresh
where
  /-- The subscriber-registration tail of `get value`, after the
  container checks succeeded on the (already bound) signal `s`. -/
  getValueTracked (s : RSignal) (ctx : RCtx) (fresh : Nat) :
      Except SigErr (JSValue × RSignal × Option ESub) :=
    let esub : Option ESub :=
      match ctx.effectSubscriber with
      | some e => some e
      | none =>
        match ctx.hostElement with
        | some _ => some ⟨fresh, []⟩
        | none => none
    match esub with
    | none => .ok (s.untracked, s, none)
    | some e =>
      .ok (s.untracked,
           { s with effects := some (ensureContains (s.effects.getD []) e.id) },
           some ⟨e.id, ensureContains e.deps s.id⟩)

/-! ## Task execution: `use-task.ts` -/

/-- One callback registered through the `cleanup` registrar of `runTask`:
it either returns or throws a value. -/
inductive CleanupFn : Type where
  | fine : CleanupFn
  | failing : JSValue → CleanupFn
deriving DecidableEq, Repr

/-- A task's `$destroy$` callback. `plain b` is an arbitrary previous
destroy (`b = some e` means it throws `e`); `aggregate host fns` is the
thunk the `cleanup` registrar installs, which invokes each registered
callback and routes a throw to `container.handleError(err, host)` instead
of letting it escape. -/
inductive DestroyFn : Type where
  | plain : Option JSValue → DestroyFn
  | aggregate : Nat → List CleanupFn → DestroyFn
deriving DecidableEq, Repr

/-- The slice of a `Task` that `runTask`/`cleanupTask` mutate: the
`$flags$` bitfield and the `$destroy$` callback. -/
structure MTask : Type where
  flags : Nat
  destroy : Option DestroyFn
deriving DecidableEq, Repr

/-- Observable events of a task run, in order. -/
inductive TEv : Type where
  | clearedDirty : TEv
  | ranDestroy : TEv
  | loggedError : JSValue → TEv
  | ranBody : TEv
  | retriedAfterAwait : TEv
  | handledError : JSValue → Nat → TEv
deriving DecidableEq, Repr

/-- One invocation of the task body: it completes (having registered the
given cleanup callbacks through `cleanup`, including a returned cleanup
function, which `safeCall` feeds back into `cleanup`), throws a value, or
throws an unsettled promise. -/
inductive Attempt : Type where
  | ok : List CleanupFn → Attempt
  | threw : JSValue → Attempt
  | threwPromise : Attempt
deriving DecidableEq, Repr

/-- How a `runTask` call settles: the returned value-or-promise either
completes or rejects with a value. -/
inductive RunRes : Type where
  | completed : RunRes
  | failed : JSValue → RunRes
deriving DecidableEq, Repr

/-- `cleanupTask(task)`: if `$destroy$` is set, clear it first, then run
it; a throw out of the destroy callback is logged (`logError`) and not
propagated. An `aggregate` destroy routes each registered callback's
throw to `container.handleError` itself and never throws. -/
def cleanupTask (t : MTask) : MTask × List TEv :=
  match t.destroy with
  | none => (t, [])
  | some (.plain none) => ({ t with destroy := none }, [.ranDestroy])
  | some (.plain (some e)) =>
    ({ t with destroy := none }, [.ranDestroy, .loggedError e])
  | some (.aggregate host fns) =>
    ({ t with destroy := none },
     .ranDestroy ::
       fns.filterMap fun f =>
         match f with
         | .fine => none
         | .failing e => some (.handledError e host))

/-- `task.$flags$ &= ~TaskFlags.DIRTY` (32-bit mask). -/
def clearDirty (f : Nat) : Nat := f &&& 4294967287

/-- The steps `runTask` performs before invoking the task body: clear the
DIRTY flag, then `cleanupTask(task)`. -/
def beforeBody (t : MTask) : MTask × List TEv :=
  let t1 : MTask := { t with flags := clearDirty t.flags }
  let p := cleanupTask t1
  (p.1, .clearedDirty :: p.2)

/-- `runTask(task, container, host)`. The task body's behaviour on its
successive invocations is the `attempts` list (an empty list stands for a
body that does nothing). A completed body has its registered cleanups
installed as the new `$destroy$` aggregate; a thrown value is re-thrown
out of `runTask` (`RunRes.failed`); a thrown promise re-invokes `runTask`
for the same task, container and host once it settles. -/
def runTask (host : Nat) (t : MTask) : List Attempt → MTask × List TEv × RunRes
  | [] => ((beforeBody t).1, (beforeBody t).2, .completed)
  | .ok regs :: _ =>
    let p := beforeBody t
    let t2 : MTask :=
      if regs.isEmpty then p.1
      else { p.1 with destroy := some (.aggregate host regs) }
    (t2, p.2 ++ [.ranBody], .completed)
  | .threw e :: _ =>
    ((beforeBody t).1, (beforeBody t).2 ++ [.ranBody], .failed e)
  | .threwPromise :: rest =>
    let p := beforeBody t
    let r := runTask host p.1 rest
    (r.1, p.2 ++ [.ranBody, .retriedAfterAwait] ++ r.2.1, r.2.2)

/-- Modelled from the spec: the scheduler's execution of a TASK chore is
not among the sampled sources (only `ChoreType` and `$scheduler$` are
referenced); per §4.5/§7 "task-body and async errors surface via the
container's handler" scoped to the host — the chore runner invokes
`runTask` and routes a rejection to `container.handleError(err, host)`. -/
def runTaskChore (host : Nat) (t : MTask) (attempts : List Attempt) :
    MTask × List TEv :=
  let r := runTask host t attempts
  match r.2.2 with
  | .completed => (r.1, r.2.1)
  | .failed e => (r.1, r.2.1 ++ [.handledError e host])

/-! ## The `track` closure of `runTask` -/

/-- An argument passed to `track`: a function (calling it yields `ret`;
its body is external), a `Signal2`, or a plain non-signal object with its
own properties. -/
inductive TrackObj : Type where
  | funcv : JSValue → TrackObj
  | signalObj : RSignal → TrackObj
  | plain : List (String × JSValue) → TrackObj
deriving DecidableEq, Repr

/-- Errors out of `track`: the `QError.trackObjectWithoutProp` usage
error, or a signal-read assertion failure. -/
inductive TrackErr : Type where
  | trackObjectWithoutProp : TrackErr
  | sigErr : SigErr → TrackErr
deriving DecidableEq, Repr

/-- JS truthiness of the optional `prop` argument (`if (prop)`): absent
and the empty string are both falsy. -/
def propTruthy : Option String → Bool
  | none => false
  | some s => !(s == "")

/-- `obj[prop]` on a plain object: the field's value, `undefined` when
absent. -/
def jsLookup (fields : List (String × JSValue)) (p : String) : JSValue :=
  match fields.lookup p with
  | some v => v
  | none => .jsUndefined

/-- The `track` closure built by `runTask`: it creates a fresh invoke
context whose `$effectSubscriber$` is the task's `(task,
EffectProperty.COMPONENT)` subscription tuple (`esub`; modelled from the
spec — `getSubscriber` lives outside the sampled sources: "performs a
scoped read establishing `(task, COMPONENT-effect-property)` as
subscriber") and whose `$container$` is the task's container, then
dispatches: a function is called; otherwise a truthy `prop` reads
`obj[prop]` (on a signal only the `value` property goes through the
tracked getter; other property names are not modelled and read as
`undefined`); otherwise a signal reads `obj.value`; anything else throws
`QError.trackObjectWithoutProp`. Returns the value read together with the
updated object and subscriber tuple. -/
def track (container : Nat) (esub : ESub) (fresh : Nat) (obj : TrackObj)
    (prop : Option String) : Except TrackErr (JSValue × TrackObj × ESub) :=
  let ctx : RCtx := ⟨some container, some esub, none⟩
  match obj with
  | .funcv ret => .ok (ret, obj, esub)
  | .plain fields =>
    if propTruthy prop then .ok (jsLookup fields (prop.getD ""), obj, esub)
    else .error .trackObjectWithoutProp
  | .signalObj s =>
    if propTruthy prop ∧ prop.getD "" ≠ "value" then .ok (.jsUndefined, obj, esub)
    else
      match getValue s (some ctx) fresh with
      | .ok (v, s1, oe) => .ok (v, .signalObj s1, oe.getD esub)
      | .error e => .error (.sigErr e)

/-! ## Theorems -/

/-- Dispatching a subscription list processes it element-wise in recorded
order, each element under the same current signal. -/
theorem scheduleEffectList_spec (c : WContainer) (cur : Nat) (l : List WSub) :
    scheduleEffectList c cur l =
      (l.map (fun x => (scheduleEffect c cur x).1),
       l.flatMap (fun x => (scheduleEffect c cur x).2)) := by
  induction l with
  | nil => rfl
  | cons x xs ih => simp [scheduleEffectList, ih]

/-- C1: `Signal2.set value` is a no-op (state kept, no effect dispatched)
exactly when the assigned value is `===`-equal to the current untracked
value; otherwise it stores the value and dispatches every recorded effect
subscription, in order. -/
theorem setValue_strict_inequality_gate (c : WContainer) (s : WSignal)
    (v : JSValue) :
    (jsStrictEq v s.untracked = true → setValue c s v = (s, [])) ∧
    (jsStrictEq v s.untracked = false →
      (setValue c s v).1.untracked = v ∧
      (setValue c s v).1.id = s.id ∧
      (setValue c s v).1.container = s.container ∧
      (setValue c s v).2 =
        (s.effects.getD []).flatMap
          (fun sub => (scheduleEffect c s.id sub).2)) := by
  constructor
  · intro h
    simp [setValue, h]
  · intro h
    cases hs : s.effects with
    | none => simp [setValue, h, triggerEffects, hs]
    | some l => simp [setValue, h, triggerEffects, hs, scheduleEffectList_spec]

/-- C1 witness: a concrete signal with one node-prop subscription; the
equal write is a no-op, the unequal write stores and dispatches. -/
theorem setValue_strict_inequality_gate_witness :
    (setValue ⟨fun _ => 0, fun _ => 0⟩
        ⟨1, some 0, JSValue.num 1,
         some [.mk 7 (.vnode 3) (.propName "title") [1]]⟩
        (JSValue.num 1) =
      (⟨1, some 0, JSValue.num 1,
        some [.mk 7 (.vnode 3) (.propName "title") [1]]⟩, [])) ∧
    ((setValue ⟨fun _ => 0, fun _ => 0⟩
        ⟨1, some 0, JSValue.num 1,
         some [.mk 7 (.vnode 3) (.propName "title") [1]]⟩
        (JSValue.num 2)).1.untracked = JSValue.num 2 ∧
      (setValue ⟨fun _ => 0, fun _ => 0⟩
        ⟨1, some 0, JSValue.num 1,
         some [.mk 7 (.vnode 3) (.propName "title") [1]]⟩
        (JSValue.num 2)).2 = [.nodeProp 3 "title" 1]) := by
  refine ⟨(setValue_strict_inequality_gate _ _ _).1 (by decide), ?_, ?_⟩
  · exact ((setValue_strict_inequality_gate _ _ _).2 (by decide)).1
  · rfl

/-- C2: the `scheduleEffect` dispatch of `$triggerEffects$` visits
subscriptions in recorded order and, per effect variant: a task gets
`TaskFlags.DIRTY` set and a TASK chore carrying the subscription; a
nested signal is marked invalid and its own subscriptions are walked with
the current-signal variable set to the nested signal (siblings keep the
outer signal, i.e. it is restored); `property === true` enqueues a
COMPONENT chore with the host's render QRL and props; `property ===
false` enqueues a NODE_DIFF chore with host, target and current signal; a
string property enqueues a NODE_PROP chore with host, property and
current signal. -/
theorem scheduleEffect_variant_dispatch (c : WContainer) (cur : Nat) :
    (∀ l, (scheduleEffectList c cur l).2 =
        l.flatMap (fun x => (scheduleEffect c cur x).2) ∧
      (scheduleEffectList c cur l).1 =
        l.map (fun x => (scheduleEffect c cur x).1)) ∧
    (∀ id tid flags p deps,
      scheduleEffect c cur (.mk id (.task tid flags) p deps) =
        (.mk id (.task tid (flags ||| dirtyFlag)) p deps, [.task id]) ∧
      Nat.testBit (flags ||| dirtyFlag) 3 = true) ∧
    (∀ id sid inv p deps,
      scheduleEffect c cur (.mk id (.sig sid inv none) p deps) =
        (.mk id (.sig sid true none) p deps, [])) ∧
    (∀ id sid inv l p deps,
      scheduleEffect c cur (.mk id (.sig sid inv (some l)) p deps) =
        (.mk id (.sig sid true (some (scheduleEffectList c sid l).1)) p deps,
         (scheduleEffectList c sid l).2)) ∧
    (∀ id host deps,
      scheduleEffect c cur (.mk id (.vnode host) .comp deps) =
        (.mk id (.vnode host) .comp deps,
         [.component host (c.renderQrl host) (c.elementProps host)])) ∧
    (∀ id host deps,
      scheduleEffect c cur (.mk id (.vnode host) .nodeDiff deps) =
        (.mk id (.vnode host) .nodeDiff deps, [.nodeDiff host host cur])) ∧
    (∀ id host p deps,
      scheduleEffect c cur (.mk id (.vnode host) (.propName p) deps) =
        (.mk id (.vnode host) (.propName p) deps, [.nodeProp host p cur])) := by
  refine ⟨?_, ?_, ?_, ?_, ?_, ?_, ?_⟩
  · intro l
    simp [scheduleEffectList_spec]
  · intro id tid flags p deps
    refine ⟨rfl, ?_⟩
    simp [dirtyFlag, Nat.testBit_lor]
    right
    decide
  · intro id sid inv p deps
    rfl
  · intro id sid inv l p deps
    rfl
  · intro id host deps
    rfl
  · intro id host deps
    rfl
  · intro id host p deps
    rfl

/-- C3: evaluation at the failing input. A `DerivedSignal2` holding `1`
with one recorded task subscription is invalidated while its function now
returns `2`: the recomputed value differs (`2 !== 1`), yet `$invalidate$`
dispatches no chore and leaves `$invalid$` set, because
`DerivedSignal2.$computeIfNeeded$` returns `undefined` and never clears
the flag — while the parallel `ComputedSignal2.$invalidate$` on the same
state dispatches the task chore, as the shared comment ("We should only
call subscribers if the calculation actually changed. Therefore, we need
to calculate the value now.") intends. -/
theorem derived_invalidate_never_triggers_bug :
    invalidateD ⟨fun _ => 0, fun _ => 0⟩
        ⟨1, some 0, JSValue.num 1, false, some [.mk 7 (.task 2 2) .comp [1]]⟩
        (JSValue.num 2) =
      (⟨1, some 0, JSValue.num 2, true, some [.mk 7 (.task 2 2) .comp [1]]⟩,
       []) ∧
    jsStrictEq (JSValue.num 2) (JSValue.num 1) = false ∧
    invalidateC ⟨fun _ => 0, fun _ => 0⟩
        ⟨1, some 0, JSValue.num 1, false, some [.mk 7 (.task 2 2) .comp [1]],
         5⟩
        (JSValue.num 2) =
      (⟨1, some 0, JSValue.num 2, false, some [.mk 7 (.task 2 10) .comp [1]],
        5⟩,
       [.task 7]) := by
  refine ⟨rfl, rfl, rfl⟩

theorem mem_ensureContains_self (l : List Nat) (x : Nat) :
    x ∈ ensureContains l x := by
  unfold ensureContains
  split
  · assumption
  · simp

theorem ensureContains_eq_of_mem {l : List Nat} {x : Nat} (h : x ∈ l) :
    ensureContains l x = l := by
  simp [ensureContains, h]

theorem ensureContains_nodup {l : List Nat} {x : Nat} (h : l.Nodup) :
    (ensureContains l x).Nodup := by
  unfold ensureContains
  split
  · exact h
  · next hx =>
    simp [List.nodup_append, h, hx]

/-- C4: a read of `Signal2.value` outside any invocation context, or
under a context with no effect subscriber (none set and no host element
to derive one from), returns the untracked value and leaves the signal's
effect-subscription list untouched (only the lazy container binding may
happen). -/
theorem getValue_untracked_read (s : RSignal) (fresh : Nat)
    (c2 : Option Nat) :
    getValue s none fresh = .ok (s.untracked, s, none) ∧
    (containerOk s c2 = true →
      getValue s (some ⟨c2, none, none⟩) fresh =
        .ok (s.untracked, { s with container := bindContainer s c2 }, none)) := by
  constructor
  · rfl
  · intro h
    cases hc : s.container with
    | none =>
      cases hc2 : c2 with
      | none => simp [containerOk, hc, hc2] at h
      | some v =>
        simp [getValue, getValue.getValueTracked, hc, hc2, bindContainer]
    | some c =>
      cases hc2 : c2 with
      | none => simp [getValue, getValue.getValueTracked, hc, hc2, bindContainer]
      | some v =>
        have hcv : c = v := by simpa [containerOk, hc, hc2] using h
        subst hcv
        simp [getValue, getValue.getValueTracked, hc, hc2, bindContainer]

/-- C4 witness: an unbound signal read under a context carrying container
`0` and no subscriber: plain read, effects untouched. -/
theorem getValue_untracked_read_witness :
    getValue ⟨1, none, JSValue.num 5, some [3]⟩ none 99 =
      .ok (JSValue.num 5, ⟨1, none, JSValue.num 5, some [3]⟩, none) ∧
    getValue ⟨1, none, JSValue.num 5, some [3]⟩ (some ⟨some 0, none, none⟩) 99 =
      .ok (JSValue.num 5, ⟨1, some 0, JSValue.num 5, some [3]⟩, none) := by
  refine ⟨(getValue_untracked_read _ 99 (some 0)).1, ?_⟩
  exact (getValue_untracked_read ⟨1, none, JSValue.num 5, some [3]⟩ 99
    (some 0)).2 rfl

/-- C6: assigning to `value` on a computed or a derived signal throws the
read-only `TypeError` and leaves the signal (value and effect
subscriptions) unchanged. -/
theorem computed_derived_set_value_rejected (cs : WComputed) (ds : WDerived)
    (v w : JSValue) :
    setValueC cs v = .error "ComputedSignal is read-only" ∧
    setValueD ds w = .error "DerivedSignal is read-only" ∧
    trySetValueC cs v = cs ∧
    trySetValueD ds w = ds := by
  exact ⟨rfl, rfl, rfl, rfl⟩

/-- C5: a tracked read under a context whose effect subscriber is `e`
returns the untracked value, records `e` in the signal's effect list and
the signal in `e`'s dependency list — each at most once (no duplicates
are introduced, and repeating the read with the same subscriber changes
nothing). -/
theorem getValue_tracked_read_idempotent (s : RSignal) (c2 ho : Option Nat)
    (e : ESub) (fresh : Nat) (h : containerOk s c2 = true) :
    getValue s (some ⟨c2, some e, ho⟩) fresh =
      .ok (s.untracked,
           ⟨s.id, bindContainer s c2, s.untracked,
            some (ensureContains (s.effects.getD []) e.id)⟩,
           some ⟨e.id, ensureContains e.deps s.id⟩) ∧
    e.id ∈ ensureContains (s.effects.getD []) e.id ∧
    s.id ∈ ensureContains e.deps s.id ∧
    ((s.effects.getD []).Nodup →
      (ensureContains (s.effects.getD []) e.id).Nodup) ∧
    (e.deps.Nodup → (ensureContains e.deps s.id).Nodup) ∧
    getValue
        ⟨s.id, bindContainer s c2, s.untracked,
         some (ensureContains (s.effects.getD []) e.id)⟩
        (some ⟨c2, some ⟨e.id, ensureContains e.deps s.id⟩, ho⟩) fresh =
      .ok (s.untracked,
           ⟨s.id, bindContainer s c2, s.untracked,
            some (ensureContains (s.effects.getD []) e.id)⟩,
           some ⟨e.id, ensureContains e.deps s.id⟩) := by
  refine ⟨?_, mem_ensureContains_self _ _, mem_ensureContains_self _ _,
    fun hn => ensureContains_nodup hn, fun hn => ensureContains_nodup hn, ?_⟩
  · cases hc : s.container with
    | none =>
      cases hc2 : c2 with
      | none => simp [containerOk, hc, hc2] at h
      | some v =>
        simp [getValue, getValue.getValueTracked, hc, hc2, bindContainer]
    | some c =>
      cases hc2 : c2 with
      | none =>
        simp [getValue, getValue.getValueTracked, hc, hc2, bindContainer]
      | some v =>
        have hcv : c = v := by simpa [containerOk, hc, hc2] using h
        subst hcv
        simp [getValue, getValue.getValueTracked, hc, hc2, bindContainer]
  · have hre : ensureContains (ensureContains (s.effects.getD []) e.id) e.id =
        ensureContains (s.effects.getD []) e.id :=
      ensureContains_eq_of_mem (mem_ensureContains_self _ _)
    have hrd : ensureContains (ensureContains e.deps s.id) s.id =
        ensureContains e.deps s.id :=
      ensureContains_eq_of_mem (mem_ensureContains_self _ _)
    cases hc : s.container with
    | none =>
      cases hc2 : c2 with
      | none => simp [containerOk, hc, hc2] at h
      | some v =>
        simp [getValue, getValue.getValueTracked, hc, hc2, bindContainer,
          hre, hrd]
    | some c =>
      cases hc2 : c2 with
      | none =>
        simp [getValue, getValue.getValueTracked, hc, hc2, bindContainer,
          hre, hrd]
      | some v =>
        have hcv : c = v := by simpa [containerOk, hc, hc2] using h
        subst hcv
        simp [getValue, getValue.getValueTracked, hc, hc2, bindContainer,
          hre, hrd]

/-- C5 witness: a signal with an empty effect list read twice under the
same subscriber tuple: one subscription each way, and the repeat read is
the identity. -/
theorem getValue_tracked_read_idempotent_witness :
    getValue ⟨1, some 0, JSValue.num 42, none⟩
        (some ⟨some 0, some ⟨9, []⟩, none⟩) 50 =
      .ok (JSValue.num 42, ⟨1, some 0, JSValue.num 42, some [9]⟩,
           some ⟨9, [1]⟩) ∧
    getValue ⟨1, some 0, JSValue.num 42, some [9]⟩
        (some ⟨some 0, some ⟨9, [1]⟩, none⟩) 50 =
      .ok (JSValue.num 42, ⟨1, some 0, JSValue.num 42, some [9]⟩,
           some ⟨9, [1]⟩) := by
  have h := getValue_tracked_read_idempotent ⟨1, some 0, JSValue.num 42, none⟩
    (some 0) none ⟨9, []⟩ 50 rfl
  exact ⟨h.1, h.2.2.2.2.2⟩

/-- C7: every `runTask` call first clears the DIRTY flag and runs (and
clears, so it runs at most once) the previous destroy callback before the
task body executes; a throw out of that callback is logged and does not
prevent the body from running. -/
theorem runTask_cleanup_before_body (host : Nat) (t : MTask) (e : JSValue)
    (regs : List CleanupFn) (rest : List Attempt) (f : Nat) :
    (runTask host t (.ok regs :: rest)).2.1 =
      (beforeBody t).2 ++ [.ranBody] ∧
    (runTask host t (.threw e :: rest)).2.1 =
      (beforeBody t).2 ++ [.ranBody] ∧
    (beforeBody t).1.flags = clearDirty t.flags ∧
    Nat.testBit (clearDirty f) 3 = false ∧
    (beforeBody t).1.destroy = none ∧
    (beforeBody ⟨f, some (.plain (some e))⟩).2 =
      [.clearedDirty, .ranDestroy, .loggedError e] ∧
    (beforeBody ⟨f, some (.plain none)⟩).2 = [.clearedDirty, .ranDestroy] ∧
    cleanupTask (cleanupTask t).1 = ((cleanupTask t).1, []) := by
  refine ⟨rfl, rfl, ?_, ?_, ?_, rfl, rfl, ?_⟩
  · cases t with
    | mk fl d =>
      cases d with
      | none => rfl
      | some df =>
        cases df with
        | plain b => cases b <;> rfl
        | aggregate hh fns => rfl
  · have hm : Nat.testBit 4294967287 3 = false := by decide
    simp [clearDirty, Nat.testBit_land, hm]
  · cases t with
    | mk fl d =>
      cases d with
      | none => rfl
      | some df =>
        cases df with
        | plain b => cases b <;> rfl
        | aggregate hh fns => rfl
  · cases t with
    | mk fl d =>
      cases d with
      | none => rfl
      | some df =>
        cases df with
        | plain b => cases b <;> rfl
        | aggregate hh fns => rfl

/-- C8: a promise thrown by the task body is not an error — the whole
`runTask` is re-invoked for the same task and host once it settles (the
final outcome is that of the re-invocation); any other thrown value
rejects `runTask` and the chore runner routes it to
`container.handleError` scoped to the task's host. -/
theorem runTask_suspension_and_error_routing (host : Nat) (t : MTask)
    (rest : List Attempt) (e : JSValue) :
    runTask host t (.threwPromise :: rest) =
      ((runTask host (beforeBody t).1 rest).1,
       (beforeBody t).2 ++ [.ranBody, .retriedAfterAwait] ++
         (runTask host (beforeBody t).1 rest).2.1,
       (runTask host (beforeBody t).1 rest).2.2) ∧
    (runTask host t (.threwPromise :: rest)).2.2 =
      (runTask host (beforeBody t).1 rest).2.2 ∧
    (runTask host t (.threw e :: rest)).2.2 = .failed e ∧
    runTaskChore host t (.threw e :: rest) =
      ((beforeBody t).1,
       (beforeBody t).2 ++ [.ranBody, .handledError e host]) := by
  refine ⟨rfl, rfl, rfl, ?_⟩
  simp [runTaskChore, runTask]

/-- C9 counterexample: `track` called with a plain object owning a
property named `""` and that property name: the claim says the read
returns the property's value `7`, but `if (prop)` treats the empty string
as absent, falls through to the signal check and throws
`QError.trackObjectWithoutProp`. -/
theorem track_empty_property_name_counterexample :
    track 0 ⟨9, []⟩ 0 (.plain [("", JSValue.num 7)]) (some "") =
      .error .trackObjectWithoutProp ∧
    track 0 ⟨9, []⟩ 0 (.plain [("", JSValue.num 7)]) (some "") ≠
      .ok (JSValue.num 7, .plain [("", JSValue.num 7)], ⟨9, []⟩) := by
  exact ⟨rfl, fun hc => Except.noConfusion hc⟩

/-- C9 (amended): `track` given a function returns its result; given
(object, property) with a nonempty property name it returns that
property's value; an empty property name is treated as absent (JS
truthiness), so a plain object with property name `""` throws the
'track object without prop' error exactly like a plain object with no
property, while a signal still yields its value; a signal with no
property returns the signal's value through a read that records the
task's `(task, COMPONENT)` subscription on the signal. -/
theorem track_dispatch_amended (cont : Nat) (esub : ESub) (fresh : Nat)
    (ret : JSValue) (prop : Option String) (fields : List (String × JSValue))
    (p : String) (s : RSignal) :
    track cont esub fresh (.funcv ret) prop = .ok (ret, .funcv ret, esub) ∧
    (p ≠ "" →
      track cont esub fresh (.plain fields) (some p) =
        .ok (jsLookup fields p, .plain fields, esub)) ∧
    track cont esub fresh (.plain fields) none =
      .error .trackObjectWithoutProp ∧
    track cont esub fresh (.plain fields) (some "") =
      .error .trackObjectWithoutProp ∧
    track cont esub fresh (.signalObj s) (some "") =
      track cont esub fresh (.signalObj s) none ∧
    (containerOk s (some cont) = true →
      track cont esub fresh (.signalObj s) none =
        .ok (s.untracked,
             .signalObj ⟨s.id, bindContainer s (some cont), s.untracked,
               some (ensureContains (s.effects.getD []) esub.id)⟩,
             ⟨esub.id, ensureContains esub.deps s.id⟩) ∧
      esub.id ∈ ensureContains (s.effects.getD []) esub.id) := by
  refine ⟨rfl, ?_, rfl, rfl, ?_, ?_⟩
  · intro hp
    simp [track, propTruthy, hp]
  · simp [track, propTruthy]
  · intro h
    have hg := (getValue_tracked_read_idempotent s (some cont) none esub
      fresh h).1
    refine ⟨?_, mem_ensureContains_self _ _⟩
    simp [track, propTruthy, hg]

/-- C9 witness for the amended claim: concrete reads through `track` —
a function, a plain object with property "count", and a signal with no
property, which records the task subscription. -/
theorem track_dispatch_amended_witness :
    track 0 ⟨9, []⟩ 0 (.funcv (JSValue.num 3)) none =
      .ok (JSValue.num 3, .funcv (JSValue.num 3), ⟨9, []⟩) ∧
    track 0 ⟨9, []⟩ 0 (.plain [("count", JSValue.num 4)]) (some "count") =
      .ok (JSValue.num 4, .plain [("count", JSValue.num 4)], ⟨9, []⟩) ∧
    track 0 ⟨9, []⟩ 0 (.signalObj ⟨1, some 0, JSValue.num 8, none⟩) none =
      .ok (JSValue.num 8,
           .signalObj ⟨1, some 0, JSValue.num 8, some [9]⟩, ⟨9, [1]⟩) := by
  have h := track_dispatch_amended 0 ⟨9, []⟩ 0 (JSValue.num 3) none
    [("count", JSValue.num 4)] "count" ⟨1, some 0, JSValue.num 8, none⟩
  exact ⟨h.1, h.2.1 (by decide), (h.2.2.2.2.2 rfl).1⟩

/-- C10: `createComputedSignal2` throws the pending resolution when the
QRL is not resolved (constructing no signal), and otherwise returns a
`ComputedSignal2` with no container, the `NEEDS_COMPUTATION` sentinel
value, the invalid flag set, no effects, and the resolved compute
function. -/
theorem createComputedSignal2_requires_resolved (fresh : Nat) (q : QRLModel)
    (f : Nat) :
    (q.resolved = none →
      createComputedSignal2 fresh q = .error .thrownResolvePromise) ∧
    (q.resolved = some f →
      createComputedSignal2 fresh q =
        .ok ⟨fresh, none, .needsComputation, true, none, f⟩) := by
  constructor
  · intro h
    simp [createComputedSignal2, h]
  · intro h
    simp [createComputedSignal2, h]

/-- C10 witness: an unresolved QRL throws; a QRL resolved to function `3`
yields the freshly constructed computed signal. -/
theorem createComputedSignal2_requires_resolved_witness :
    createComputedSignal2 5 ⟨none⟩ = .error .thrownResolvePromise ∧
    createComputedSignal2 5 ⟨some 3⟩ =
      .ok ⟨5, none, .needsComputation, true, none, 3⟩ := by
  exact ⟨(createComputedSignal2_requires_resolved 5 ⟨none⟩ 0).1 rfl,
    (createComputedSignal2_requires_resolved 5 ⟨some 3⟩ 3).2 rfl⟩
